import Mathlib

/-!
Verification of the `testutil` Go package (string diffing, error-message
checking, and HTTP request/response comparison helpers).

Go strings are arbitrary byte sequences; we embed them as `List Nat`
(each element a byte value).  Lean string literals are converted to their
UTF-8 bytes by `goStr`, so that the messages built with `fmt.Sprintf`
in the source can be reproduced byte for byte.
-/

/-- A Go string: a sequence of bytes. -/
abbrev GoString := List Nat

/-- UTF-8 encoding of one character, as byte values. -/
def charToUTF8 (c : Char) : List Nat :=
  if c.toNat < 128 then [c.toNat]
  else if c.toNat < 2048 then
    [192 + c.toNat / 64, 128 + c.toNat % 64]
  else if c.toNat < 65536 then
    [224 + c.toNat / 4096, 128 + (c.toNat / 64) % 64, 128 + c.toNat % 64]
  else
    [240 + c.toNat / 262144, 128 + (c.toNat / 4096) % 64,
     128 + (c.toNat / 64) % 64, 128 + c.toNat % 64]

/-- The bytes of a Lean string literal, i.e. the Go string it denotes. -/
def goStr (s : String) : GoString :=
  s.data.foldr (fun c acc => charToUTF8 c ++ acc) []

/-- Decimal rendering of a natural number, as bytes (Go fmt `%d`). -/
def natBytes (n : Nat) : GoString :=
  (Nat.repr n).data.map Char.toNat

/-- Decimal rendering of a Go int, as bytes (Go fmt `%d`). -/
def intBytes (i : Int) : GoString :=
  (Int.repr i).data.map Char.toNat

/-- Go `strings.Join`. -/
def goJoin (elems : List GoString) (sep : GoString) : GoString :=
  match elems with
  | [] => []
  | [x] => x
  | x :: xs => x ++ sep ++ goJoin xs sep

/-- One hex digit (lowercase), as a byte. -/
def hexDigit (n : Nat) : Nat := if n < 10 then 48 + n else 87 + n

/-- Quoting of one byte inside a double-quoted Go string literal.
Models `strconv.Quote` (used by fmt `%q`) on the byte level: printable
ASCII other than quote and backslash passes through, common control
characters get their backslash escapes, all other bytes get a hex
escape.  (For valid non-ASCII UTF-8 runes Go would print the rune
itself; no claim in this development quotes non-ASCII data.) -/
def goQuoteChar (b : Nat) : List Nat :=
  if b = 34 then [92, 34]
  else if b = 92 then [92, 92]
  else if b = 10 then [92, 110]
  else if b = 9 then [92, 116]
  else if b = 13 then [92, 114]
  else if b = 7 then [92, 97]
  else if b = 8 then [92, 98]
  else if b = 12 then [92, 102]
  else if b = 11 then [92, 118]
  else if 32 ≤ b ∧ b ≤ 126 then [b]
  else [92, 120, hexDigit (b / 16), hexDigit (b % 16)]

/-- Go fmt `%q` on a string: double quotes around the escaped bytes. -/
def goQuote (s : GoString) : GoString :=
  34 :: s.foldr (fun b acc => goQuoteChar b ++ acc) [] ++ [34]

/-!
`CompareStrings` (src/testutil.go lines 58-71).  The Go loop is
`for i := range want`, which iterates over the byte offsets of the
UTF-8 rune starts of `want` (Go `range` over a string decodes runes;
an invalid byte advances by 1).  `goRuneWidth` is the number of bytes
by which the index advances at offset `i`, following the acceptance
ranges of Go `unicode/utf8.DecodeRuneInString`.
-/

/-- Width of a 2-byte sequence at `i` if its continuation byte is valid,
else 1 (Go utf8: invalid encodings advance by one byte). -/
def utf8Width2 (s : List Nat) (i : Nat) : Nat :=
  if i + 1 < s.length ∧ 128 ≤ s.getD (i+1) 0 ∧ s.getD (i+1) 0 ≤ 191 then 2 else 1

/-- Width of a 3-byte sequence at `i`; `lo`/`hi` bound the first
continuation byte (the acceptance range of the lead byte in Go utf8),
the second continuation byte must be 128..191; else width 1. -/
def utf8Width3 (s : List Nat) (i lo hi : Nat) : Nat :=
  if i + 2 < s.length ∧ lo ≤ s.getD (i+1) 0 ∧ s.getD (i+1) 0 ≤ hi ∧
     128 ≤ s.getD (i+2) 0 ∧ s.getD (i+2) 0 ≤ 191 then 3 else 1

/-- Width of a 4-byte sequence at `i`; `lo`/`hi` bound the first
continuation byte, the others must be 128..191; else width 1. -/
def utf8Width4 (s : List Nat) (i lo hi : Nat) : Nat :=
  if i + 3 < s.length ∧ lo ≤ s.getD (i+1) 0 ∧ s.getD (i+1) 0 ≤ hi ∧
     128 ≤ s.getD (i+2) 0 ∧ s.getD (i+2) 0 ≤ 191 ∧
     128 ≤ s.getD (i+3) 0 ∧ s.getD (i+3) 0 ≤ 191 then 4 else 1

/-- Width of the rune (or invalid byte) starting at byte offset `i` of
`s`, exactly as the Go `range` loop over a string advances.  The lead
byte dispatch and per-lead acceptance ranges follow Go
`unicode/utf8.DecodeRuneInString`. -/
def goRuneWidth (s : List Nat) (i : Nat) : Nat :=
  if s.getD i 0 < 128 then 1
  else if s.getD i 0 < 194 then 1
  else if s.getD i 0 < 224 then utf8Width2 s i
  else if s.getD i 0 = 224 then utf8Width3 s i 160 191
  else if s.getD i 0 = 237 then utf8Width3 s i 128 159
  else if s.getD i 0 < 240 then utf8Width3 s i 128 191
  else if s.getD i 0 = 240 then utf8Width4 s i 144 191
  else if s.getD i 0 = 244 then utf8Width4 s i 128 143
  else if s.getD i 0 < 245 then utf8Width4 s i 128 191
  else 1

/-- The "shorter" message of `CompareStrings` with the missing suffix. -/
def shorterMsg (missing : GoString) : GoString :=
  goStr "got a shorter string than what we wanted (characters match otherwise) and the missing characters are: " ++ missing

/-- The "differ at index" message of `CompareStrings`. -/
def differMsg (i : Nat) (gotSuf wantSuf : GoString) : GoString :=
  goStr "strings differ at index " ++ natBytes i ++
  goStr ", from that index on:\n##### got string #####\n" ++ gotSuf ++
  goStr "\n##### want string #####\n" ++ wantSuf

/-- The "longer" message of `CompareStrings` with the extra suffix. -/
def longerMsg (extra : GoString) : GoString :=
  goStr "got a longer string than what we wanted (characters match otherwise) and the extra characters are: " ++ extra

/-- The loop of `CompareStrings`.  `i` is the current byte offset of the
Go `range` loop over `want`; `fuel` is a structural bound on the number
of remaining iterations (each iteration advances `i` by at least 1, so
`want.length + 1` fuel always suffices; see `CompareStrings`).
The bounds test is Go `i > len(got)-1`, an int comparison. -/
def CompareStringsAux (got want : List Nat) : Nat → Nat → GoString
  | _, 0 => []
  | i, fuel+1 =>
    if i < want.length then
      if (i : Int) > (got.length : Int) - 1 then
        shorterMsg (want.drop i)
      else if got.getD i 0 ≠ want.getD i 0 then
        differMsg i (got.drop i) (want.drop i)
      else
        CompareStringsAux got want (i + goRuneWidth want i) fuel
    else if want.length < got.length then
      longerMsg (got.drop want.length)
    else []

/-- Go `CompareStrings` (src/testutil.go lines 58-71). -/
def CompareStrings (got want : List Nat) : GoString :=
  CompareStringsAux got want 0 (want.length + 1)

-- Helper lemmas for the loop.

theorem one_le_utf8Width2 (s : List Nat) (i : Nat) : 1 ≤ utf8Width2 s i := by
  unfold utf8Width2; split <;> omega

theorem one_le_utf8Width3 (s : List Nat) (i lo hi : Nat) : 1 ≤ utf8Width3 s i lo hi := by
  unfold utf8Width3; split <;> omega

theorem one_le_utf8Width4 (s : List Nat) (i lo hi : Nat) : 1 ≤ utf8Width4 s i lo hi := by
  unfold utf8Width4; split <;> omega

theorem one_le_goRuneWidth (s : List Nat) (i : Nat) : 1 ≤ goRuneWidth s i := by
  unfold goRuneWidth
  split_ifs <;>
    first
      | omega
      | exact one_le_utf8Width2 s i
      | exact one_le_utf8Width3 s i _ _
      | exact one_le_utf8Width4 s i _ _

theorem compareStringsAux_self (s : List Nat) :
    ∀ fuel i, s.length - i < fuel → CompareStringsAux s s i fuel = [] := by
  intro fuel
  induction fuel with
  | zero => intro i h; omega
  | succ n ih =>
    intro i h
    rw [CompareStringsAux]
    by_cases h1 : i < s.length
    · rw [if_pos h1]
      have h2 : ¬ ((i : Int) > (s.length : Int) - 1) := by omega
      rw [if_neg h2, if_neg (by simp)]
      exact ih (i + goRuneWidth s i) (by have := one_le_goRuneWidth s i; omega)
    · rw [if_neg h1, if_neg (by omega)]

theorem compareStrings_self (s : List Nat) : CompareStrings s s = [] :=
  compareStringsAux_self s (s.length + 1) 0 (by omega)

/-!
`CheckErrHasMsg` (src/testutil.go lines 14-21).  A Go `error` value is
either `nil` or carries a message; `fmt.Sprintf("%v", err)` renders a
nil error as the literal `<nil>`.
-/

/-- Rendering of an error by Go fmt `%v`: the message, or `<nil>`. -/
def errRender : Option GoString → GoString
  | none => goStr "<nil>"
  | some m => m

/-- The two-line mismatch report of `CheckErrHasMsg`. -/
def errMsgLine (gotMsg wantMsg : GoString) : GoString :=
  goStr "got error message:\n  " ++ gotMsg ++
  goStr "\nwant error message to start with the string:\n  " ++ wantMsg

/-- Go `CheckErrHasMsg` (src/testutil.go lines 14-21).  The second
branch uses `strings.HasPrefix` on the rendered error. -/
def CheckErrHasMsg (err : Option GoString) (wantMsg : GoString) : GoString :=
  if wantMsg = [] ∧ err ≠ none then
    goStr "got non-nil error: " ++ errRender err
  else if wantMsg ≠ [] ∧ List.isPrefixOf wantMsg (errRender err) = false then
    errMsgLine (errRender err) wantMsg
  else []

/-!
HTTP headers.  Go `http.Header` is a `map[string][]string`; we embed it
as an association list from header name to the ordered list of values.
`Header.Get` canonicalizes the lookup key with
`textproto.CanonicalMIMEHeaderKey` and returns the first value, or the
empty string when the key is missing or its value list is empty.
-/

/-- HTTP headers: name to ordered values. -/
abbrev Headers := List (GoString × List GoString)

/-- Go `validHeaderFieldByte`: bytes allowed in a header field name
(token characters per RFC 7230). -/
def validHeaderFieldByte (b : Nat) : Bool :=
  b == 33 || (35 ≤ b && b ≤ 39) || b == 42 || b == 43 || b == 45 || b == 46 ||
  (48 ≤ b && b ≤ 57) || (65 ≤ b && b ≤ 90) || (94 ≤ b && b ≤ 96) ||
  (97 ≤ b && b ≤ 122) || b == 124 || b == 126

/-- The case-folding pass of `CanonicalMIMEHeaderKey`: uppercase the
first byte and every byte following a hyphen, lowercase the rest. -/
def canonicalCase : GoString → Bool → GoString
  | [], _ => []
  | c :: rest, upper =>
    (if upper ∧ 97 ≤ c ∧ c ≤ 122 then c - 32
     else if ¬ upper ∧ 65 ≤ c ∧ c ≤ 90 then c + 32
     else c) ::
    canonicalCase rest
      ((if upper ∧ 97 ≤ c ∧ c ≤ 122 then c - 32
        else if ¬ upper ∧ 65 ≤ c ∧ c ≤ 90 then c + 32
        else c) == 45)

/-- Go `textproto.CanonicalMIMEHeaderKey`: canonicalize a valid header
field name; a name with an invalid byte is returned unchanged. -/
def canonicalMIMEHeaderKey (s : GoString) : GoString :=
  if s.all validHeaderFieldByte then canonicalCase s true else s

/-- First association of a key in a headers list (Go map lookup; Go map
keys are unique, the list embedding takes the first match). -/
def lookupHeader : Headers → GoString → Option (List GoString)
  | [], _ => none
  | (k, v) :: rest, key => if k = key then some v else lookupHeader rest key

/-- Go `http.Header.Get`: canonicalize the key, return the first value,
or the empty string when absent or empty. -/
def headerGet (h : Headers) (key : GoString) : GoString :=
  match lookupHeader h (canonicalMIMEHeaderKey key) with
  | some (v :: _) => v
  | _ => []

/-!
Request and response comparison (src/testutil.go lines 95-115 and
134-151, and `CompareHTTPRequests` from the earlier revision of
testutil.go kept under src/unnamed/part_000 lines 87-109).
-/

/-- Go `testutil.HTTPRequest`: the expected-side model of a request. -/
structure HTTPRequest where
  Method : GoString
  URL : GoString
  Header : Headers
  Body : GoString

/-- The fields of a live `*http.Request` that `CheckHTTPRequest` reads:
the method, `req.URL.String()` (the URL rendered back to a string by
the standard library), the header map, and the contents of the body
stream (`MustReadAll(req.Body)` reads it all or aborts the test). -/
structure GoHTTPRequest where
  Method : GoString
  URLStr : GoString
  Header : Headers
  Body : GoString

/-- Per-header mismatch line of `CheckHTTPRequest` / `CheckHTTPResponse`. -/
def headerLine (name gotV wantV : GoString) : GoString :=
  goStr "header " ++ goQuote name ++ goStr " got value " ++ goQuote gotV ++
  goStr ", want " ++ goQuote wantV

/-- Per-header mismatch line of `CompareHTTPRequests` (earlier revision). -/
def forHeaderLine (name gotV wantV : GoString) : GoString :=
  goStr "for header " ++ goQuote name ++ goStr " got value " ++ goQuote gotV ++
  goStr ", want " ++ goQuote wantV

/-- Method mismatch line. -/
def methodLine (g w : GoString) : GoString :=
  goStr "got method " ++ goQuote g ++ goStr ", want " ++ goQuote w

/-- URL mismatch line. -/
def urlLine (g w : GoString) : GoString :=
  goStr "got url:\n  " ++ goQuote g ++ goStr "\nwant:\n  " ++ goQuote w

/-- Status code mismatch line of `CheckHTTPResponse`. -/
def statusLine (g w : Int) : GoString :=
  goStr "got status code " ++ intBytes g ++ goStr ", want " ++ intBytes w

/-- Body mismatch line of `CompareHTTPRequests` (earlier revision,
plain `%s` of both bodies). -/
def bodyLine (g w : GoString) : GoString :=
  goStr "got body:\n  " ++ g ++ goStr "\nwant:\n  " ++ w

/-- The header loop shared by `CheckHTTPRequest` and
`CheckHTTPResponse`: for every header name of `want`, compare the first
value in `got` against the first value in `want`; one line per
mismatch.  Names present only in `got` are never visited. -/
def headerDiffLines (gotH wantH : Headers) : List GoString :=
  wantH.filterMap fun p =>
    if headerGet gotH p.1 ≠ headerGet wantH p.1 then
      some (headerLine p.1 (headerGet gotH p.1) (headerGet wantH p.1))
    else none

/-- The header loop of `CompareHTTPRequests` (identical condition,
differently worded line). -/
def compareHeaderDiffLines (gotH wantH : Headers) : List GoString :=
  wantH.filterMap fun p =>
    if headerGet gotH p.1 ≠ headerGet wantH p.1 then
      some (forHeaderLine p.1 (headerGet gotH p.1) (headerGet wantH p.1))
    else none

/-- The `diffs` slice accumulated by `CheckHTTPRequest`, in source
order: headers, method, URL, body (body via `CompareStrings`). -/
def requestDiffs (got : GoHTTPRequest) (want : HTTPRequest) : List GoString :=
  headerDiffLines got.Header want.Header
    ++ (if got.Method ≠ want.Method then [methodLine got.Method want.Method] else [])
    ++ (if got.URLStr ≠ want.URL then [urlLine got.URLStr want.URL] else [])
    ++ (if CompareStrings got.Body want.Body ≠ [] then
          [goStr "body is not expected, " ++ CompareStrings got.Body want.Body]
        else [])

/-- Go `CheckHTTPRequest` (src/testutil.go lines 95-115). -/
def CheckHTTPRequest (got : GoHTTPRequest) (want : HTTPRequest) : GoString :=
  if (requestDiffs got want).length > 0 then
    goStr "request does not match what is expected:\n" ++
      goJoin (requestDiffs got want) (goStr "\n")
  else []

/-- Go `HTTPReqToTestutilHTTPReq` (src/unnamed/part_000 lines 74-81):
project a live request to the model, reading the whole body. -/
def HTTPReqToTestutilHTTPReq (req : GoHTTPRequest) : HTTPRequest :=
  { Method := req.Method, URL := req.URLStr, Header := req.Header, Body := req.Body }

/-- The `diffs` slice accumulated by `CompareHTTPRequests` (earlier
revision): headers, method, URL, body (body by plain equality). -/
def compareRequestDiffs (got want : HTTPRequest) : List GoString :=
  compareHeaderDiffLines got.Header want.Header
    ++ (if got.Method ≠ want.Method then [methodLine got.Method want.Method] else [])
    ++ (if got.URL ≠ want.URL then [urlLine got.URL want.URL] else [])
    ++ (if got.Body ≠ want.Body then [bodyLine got.Body want.Body] else [])

/-- Go `CompareHTTPRequests` (src/unnamed/part_000 lines 87-109). -/
def CompareHTTPRequests (got want : HTTPRequest) : GoString :=
  if (compareRequestDiffs got want).length > 0 then
    goStr "request is not expected:\n" ++
      goJoin (compareRequestDiffs got want) (goStr "\n")
  else []

/-- Go `testutil.HTTPResponse`: the expected-side model of a response. -/
structure HTTPResponse where
  StatusCode : Int
  Header : Headers
  Body : GoString

/-- The fields of a live `*http.Response` that `CheckHTTPResponse`
reads: status code, header map, and the contents of the body stream. -/
structure GoHTTPResponse where
  StatusCode : Int
  Header : Headers
  Body : GoString

/-- The `diffs` slice accumulated by `CheckHTTPResponse`, in source
order: status code, headers, body (body via `CompareStrings`). -/
def responseDiffs (got : GoHTTPResponse) (want : HTTPResponse) : List GoString :=
  (if got.StatusCode ≠ want.StatusCode then
     [statusLine got.StatusCode want.StatusCode] else [])
    ++ headerDiffLines got.Header want.Header
    ++ (if CompareStrings got.Body want.Body ≠ [] then
          [goStr "body is not expected, " ++ CompareStrings got.Body want.Body]
        else [])

/-- Go `CheckHTTPResponse` (src/testutil.go lines 134-151). -/
def CheckHTTPResponse (got : GoHTTPResponse) (want : HTTPResponse) : GoString :=
  if (responseDiffs got want).length > 0 then
    goStr "response does not match what is expected:\n" ++
      goJoin (responseDiffs got want) (goStr "\n")
  else []

/-!
A bounds-checked shadow of `CompareStrings` for the safety claim: every
index and slice operation that the Go code performs (`got[i]`,
`want[i]`, `want[i:]`, `got[i:]`, `got[len(want):]`) is routed through
a checking primitive that yields `none` when out of range (where Go
would panic), and the loop yields `none` when its fuel runs out (where
Go would fail to terminate).
-/

/-- Checked byte indexing: Go `s[i]`, `none` out of range. -/
def goIndex (s : List Nat) (i : Nat) : Option Nat :=
  if h : i < s.length then some (s.get ⟨i, h⟩) else none

/-- Checked suffix slicing: Go `s[i:]`, `none` when `i > len(s)`. -/
def goSliceFrom (s : List Nat) (i : Nat) : Option (List Nat) :=
  if i ≤ s.length then some (s.drop i) else none

/-- The loop of `CompareStrings` with every index and slice checked. -/
def CompareStringsCheckedAux (got want : List Nat) : Nat → Nat → Option GoString
  | _, 0 => none
  | i, fuel+1 =>
    if i < want.length then
      if (i : Int) > (got.length : Int) - 1 then
        (goSliceFrom want i).map shorterMsg
      else
        (goIndex got i).bind fun gb =>
          (goIndex want i).bind fun wb =>
            if gb ≠ wb then
              (goSliceFrom got i).bind fun gs =>
                (goSliceFrom want i).map fun ws => differMsg i gs ws
            else
              CompareStringsCheckedAux got want (i + goRuneWidth want i) fuel
    else if want.length < got.length then
      (goSliceFrom got want.length).map longerMsg
    else some []

/-- `CompareStrings` with checked accesses. -/
def CompareStringsChecked (got want : List Nat) : Option GoString :=
  CompareStringsCheckedAux got want 0 (want.length + 1)

theorem goIndex_eq_some (s : List Nat) (i : Nat) (h : i < s.length) :
    goIndex s i = some (s.getD i 0) := by
  simp [goIndex, h, List.getD_eq_getElem]

theorem goSliceFrom_eq_some (s : List Nat) (i : Nat) (h : i ≤ s.length) :
    goSliceFrom s i = some (s.drop i) := by
  simp [goSliceFrom, h]

theorem compareStringsCheckedAux_eq (got want : List Nat) :
    ∀ fuel i, want.length - i < fuel →
      CompareStringsCheckedAux got want i fuel =
        some (CompareStringsAux got want i fuel) := by
  intro fuel
  induction fuel with
  | zero => intro i h; omega
  | succ n ih =>
    intro i h
    rw [CompareStringsCheckedAux, CompareStringsAux]
    by_cases h1 : i < want.length
    · rw [if_pos h1, if_pos h1]
      by_cases h2 : (i : Int) > (got.length : Int) - 1
      · rw [if_pos h2, if_pos h2, goSliceFrom_eq_some want i (by omega), Option.map_some']
      · have hg : i < got.length := by omega
        rw [if_neg h2, if_neg h2, goIndex_eq_some got i hg, goIndex_eq_some want i h1,
          Option.some_bind, Option.some_bind]
        by_cases h3 : got.getD i 0 ≠ want.getD i 0
        · rw [if_pos h3, if_pos h3, goSliceFrom_eq_some got i (by omega),
            goSliceFrom_eq_some want i (by omega), Option.some_bind, Option.map_some']
        · rw [if_neg h3, if_neg h3]
          exact ih (i + goRuneWidth want i)
            (by have := one_le_goRuneWidth want i; omega)
    · rw [if_neg h1, if_neg h1]
      by_cases h4 : want.length < got.length
      · rw [if_pos h4, if_pos h4, goSliceFrom_eq_some got want.length (by omega),
          Option.map_some']
      · rw [if_neg h4, if_neg h4]

/-!
Helper lemmas about the header loops and about when a comparator
returns the empty string.
-/

theorem headerDiffLines_eq_nil_iff (gotH wantH : Headers) :
    headerDiffLines gotH wantH = [] ↔
      ∀ p ∈ wantH, headerGet gotH p.1 = headerGet wantH p.1 := by
  simp only [headerDiffLines, List.filterMap_eq_nil_iff]
  constructor
  · intro h p hp
    have := h p hp
    by_cases hc : headerGet gotH p.1 = headerGet wantH p.1
    · exact hc
    · simp [hc] at this
  · intro h p hp
    simp [h p hp]

theorem compareHeaderDiffLines_eq_nil_iff (gotH wantH : Headers) :
    compareHeaderDiffLines gotH wantH = [] ↔
      ∀ p ∈ wantH, headerGet gotH p.1 = headerGet wantH p.1 := by
  simp only [compareHeaderDiffLines, List.filterMap_eq_nil_iff]
  constructor
  · intro h p hp
    have := h p hp
    by_cases hc : headerGet gotH p.1 = headerGet wantH p.1
    · exact hc
    · simp [hc] at this
  · intro h p hp
    simp [h p hp]

set_option maxRecDepth 4000 in
theorem requestSummary_ne_nil :
    goStr "request does not match what is expected:\n" ≠ [] := by decide

set_option maxRecDepth 4000 in
theorem compareRequestSummary_ne_nil :
    goStr "request is not expected:\n" ≠ [] := by decide

set_option maxRecDepth 4000 in
theorem responseSummary_ne_nil :
    goStr "response does not match what is expected:\n" ≠ [] := by decide

theorem checkHTTPRequest_eq_nil_iff (got : GoHTTPRequest) (want : HTTPRequest) :
    CheckHTTPRequest got want = [] ↔ requestDiffs got want = [] := by
  unfold CheckHTTPRequest
  split
  · rename_i hlen
    constructor
    · intro h
      exact absurd (List.append_eq_nil.1 h).1 requestSummary_ne_nil
    · intro h
      rw [h] at hlen
      simp at hlen
  · rename_i hlen
    constructor
    · intro _
      cases hd : requestDiffs got want with
      | nil => rfl
      | cons a l => rw [hd] at hlen; simp at hlen
    · intro _
      rfl

theorem compareHTTPRequests_eq_nil_iff (got want : HTTPRequest) :
    CompareHTTPRequests got want = [] ↔ compareRequestDiffs got want = [] := by
  unfold CompareHTTPRequests
  split
  · rename_i hlen
    constructor
    · intro h
      exact absurd (List.append_eq_nil.1 h).1 compareRequestSummary_ne_nil
    · intro h
      rw [h] at hlen
      simp at hlen
  · rename_i hlen
    constructor
    · intro _
      cases hd : compareRequestDiffs got want with
      | nil => rfl
      | cons a l => rw [hd] at hlen; simp at hlen
    · intro _
      rfl

theorem headerGet_cons_of_empty (wantH : Headers) (n key : GoString)
    (hcanon : canonicalMIMEHeaderKey n = n)
    (hw : headerGet wantH n = []) :
    headerGet ((n, ([] : List GoString)) :: wantH) key = headerGet wantH key := by
  unfold headerGet at *
  rw [hcanon] at hw
  by_cases hk : n = canonicalMIMEHeaderKey key
  · simp only [lookupHeader, if_pos hk]
    rw [← hk, hw]
  · simp only [lookupHeader, if_neg hk]

theorem headerDiffLines_cons_empty (gotH wantH : Headers) (n : GoString)
    (hcanon : canonicalMIMEHeaderKey n = n)
    (hg : headerGet gotH n = [])
    (hw : headerGet wantH n = []) :
    headerDiffLines gotH ((n, ([] : List GoString)) :: wantH) =
      headerDiffLines gotH wantH := by
  unfold headerDiffLines
  have hhead : headerGet ((n, ([] : List GoString)) :: wantH) n = headerGet wantH n :=
    headerGet_cons_of_empty wantH n n hcanon hw
  have hcongr : ∀ p ∈ wantH,
      (if headerGet gotH p.1 ≠ headerGet ((n, ([] : List GoString)) :: wantH) p.1 then
        some (headerLine p.1 (headerGet gotH p.1)
          (headerGet ((n, ([] : List GoString)) :: wantH) p.1))
      else none) =
      (if headerGet gotH p.1 ≠ headerGet wantH p.1 then
        some (headerLine p.1 (headerGet gotH p.1) (headerGet wantH p.1))
      else none) := by
    intro p _
    rw [headerGet_cons_of_empty wantH n p.1 hcanon hw]
  rw [List.filterMap_cons, hhead, hw, hg, List.filterMap_congr hcongr]
  simp

theorem errMsgLine_ne_nil (g w : GoString) : errMsgLine g w ≠ [] := by
  unfold errMsgLine
  intro h
  have h1 := (List.append_eq_nil.1 (List.append_eq_nil.1 (List.append_eq_nil.1 h).1).1).1
  exact absurd h1 (by decide)

theorem ite_singleton_eq_nil_iff (c : Prop) [Decidable c] (x : GoString) :
    (if c then [x] else []) = [] ↔ ¬ c := by
  split <;> simp_all

/-!
The claims.
-/

/-- Claim C1.  The claim states that for equal-length `got ≠ want`,
`CompareStrings` reports the smallest byte index at which they differ,
scanning every byte index from 0 upward.  The code iterates with
`for i := range want`, which visits only UTF-8 rune-start offsets, so a
difference confined to a continuation byte is skipped entirely: on
`got = "è"` (bytes 195 168) and `want = "é"` (bytes 195 169) — equal
length, different strings — the loop checks only offset 0 and the
function returns the empty string, contradicting both the claim and the
function's own documentation ("returns a string detailing where they
differ or empty if they don't").  This theorem evaluates the code at
that failing input. -/
theorem compareStrings_skips_mid_rune_byte :
    CompareStrings [195, 168] [195, 169] = [] ∧
      ([195, 168] : List Nat) ≠ [195, 169] := by decide

/-- Claim C2: for every string `s`, `CompareStrings s s` is empty
(reflexivity), for arbitrary byte strings including invalid UTF-8. -/
theorem compareStrings_reflexive (s : List Nat) : CompareStrings s s = [] :=
  compareStrings_self s

set_option maxRecDepth 10000 in
/-- Claim C6: `CompareStrings "hello there" "hello theer buddy"`
returns exactly the documented diff string. -/
theorem compareStrings_hello_example :
    CompareStrings (goStr "hello there") (goStr "hello theer buddy") =
      goStr "strings differ at index 9, from that index on:\n##### got string #####\nre\n##### want string #####\ner buddy" := by
  decide

/-- Claim C9: `CompareStrings` is total and in-bounds: the shadow
version that checks every byte access and slice (yielding `none` where
Go would panic) and metes out only `want.length + 1` loop iterations
(yielding `none` if the loop would need more) always succeeds and
agrees with `CompareStrings`. -/
theorem compareStrings_safe (got want : List Nat) :
    CompareStringsChecked got want = some (CompareStrings got want) :=
  compareStringsCheckedAux_eq got want (want.length + 1) 0 (by omega)

set_option maxRecDepth 4000 in
/-- Claim C3, counterexample.  The claim states that for every
non-empty `wantPrefix`, a nil error yields a non-empty two-line report.
But a nil error is rendered as the literal `<nil>`, and
`strings.HasPrefix` is applied to that rendering, so a `wantPrefix`
that is itself a byte prefix of `<nil>` — here the whole marker — makes
`CheckErrHasMsg` return the empty string. -/
theorem checkErrHasMsg_nil_marker_counterexample :
    CheckErrHasMsg none (goStr "<nil>") = [] ∧ goStr "<nil>" ≠ [] := by decide

/-- Claim C3, amended: for every non-empty `wantPrefix` that is not a
byte prefix of the absent-value marker `<nil>`, a nil error yields the
non-empty two-line report showing the marker and the expected
prefix. -/
theorem checkErrHasMsg_nil_error_report (w : GoString) (h1 : w ≠ [])
    (h2 : List.isPrefixOf w (goStr "<nil>") = false) :
    CheckErrHasMsg none w = errMsgLine (goStr "<nil>") w ∧
      CheckErrHasMsg none w ≠ [] := by
  have hres : CheckErrHasMsg none w = errMsgLine (goStr "<nil>") w := by
    unfold CheckErrHasMsg
    rw [if_neg (by simp), if_pos ⟨h1, by simpa [errRender] using h2⟩]
    rfl
  exact ⟨hres, by rw [hres]; exact errMsgLine_ne_nil _ _⟩

set_option maxRecDepth 4000 in
theorem checkErrHasMsg_nil_error_report_witness :
    CheckErrHasMsg none (goStr "some error happened") =
        errMsgLine (goStr "<nil>") (goStr "some error happened") ∧
      CheckErrHasMsg none (goStr "some error happened") ≠ [] :=
  checkErrHasMsg_nil_error_report (goStr "some error happened") (by decide) (by decide)

/-- Claim C4: if every header name of `want` has equal first values on
both sides, and method, URL and body agree, then `CheckHTTPRequest`
returns the empty string, whatever extra headers `got` carries. -/
theorem checkHTTPRequest_matching (got : GoHTTPRequest) (want : HTTPRequest)
    (hh : ∀ p ∈ want.Header, headerGet got.Header p.1 = headerGet want.Header p.1)
    (hm : got.Method = want.Method) (hu : got.URLStr = want.URL)
    (hb : got.Body = want.Body) :
    CheckHTTPRequest got want = [] := by
  rw [checkHTTPRequest_eq_nil_iff]
  unfold requestDiffs
  rw [(headerDiffLines_eq_nil_iff _ _).2 hh, hm, hu, hb]
  simp [compareStrings_self]

set_option maxRecDepth 10000 in
theorem checkHTTPRequest_matching_witness :
    CheckHTTPRequest
        ⟨goStr "GET", goStr "http://h", [(goStr "Extra", [goStr "v"])], goStr "b"⟩
        ⟨goStr "GET", goStr "http://h", [], goStr "b"⟩ = [] :=
  checkHTTPRequest_matching _ _ (by simp) rfl rfl rfl

set_option maxRecDepth 10000 in
/-- Claim C5, counterexample.  The claim states that `CheckHTTPRequest`
on a live request and `CompareHTTPRequests` on its
`HTTPReqToTestutilHTTPReq` projection produce the same result string.
They do not: on a request whose body differs from the expected body
only in a UTF-8 continuation byte, `CheckHTTPRequest` (which delegates
to `CompareStrings`) sees no difference and returns the empty string,
while `CompareHTTPRequests` (plain string inequality on bodies, and
differently worded messages in general) reports a diff. -/
theorem checkVsCompareRequests_counterexample :
    CheckHTTPRequest ⟨goStr "GET", goStr "u", [], [195, 168]⟩
        ⟨goStr "GET", goStr "u", [], [195, 169]⟩ ≠
      CompareHTTPRequests
        (HTTPReqToTestutilHTTPReq ⟨goStr "GET", goStr "u", [], [195, 168]⟩)
        ⟨goStr "GET", goStr "u", [], [195, 169]⟩ := by decide

/-- Claim C5, amended: the live-request comparator and the
model-to-model comparator applied to the projection agree on *whether*
the request matches (empty versus non-empty result) whenever
`CompareStrings` agrees with plain equality on the two bodies; their
non-empty diff strings are worded differently by design of the two
revisions. -/
theorem checkVsCompareRequests_agree (got : GoHTTPRequest) (want : HTTPRequest)
    (hb : CompareStrings got.Body want.Body = [] ↔ got.Body = want.Body) :
    (CheckHTTPRequest got want = [] ↔
      CompareHTTPRequests (HTTPReqToTestutilHTTPReq got) want = []) := by
  rw [checkHTTPRequest_eq_nil_iff, compareHTTPRequests_eq_nil_iff]
  unfold requestDiffs compareRequestDiffs HTTPReqToTestutilHTTPReq
  simp only [List.append_eq_nil, headerDiffLines_eq_nil_iff,
    compareHeaderDiffLines_eq_nil_iff, ite_singleton_eq_nil_iff, not_not, ne_eq]
  rw [hb]

set_option maxRecDepth 4000 in
theorem checkVsCompareRequests_agree_witness :
    (CheckHTTPRequest ⟨goStr "GET", goStr "u", [], goStr "a"⟩
        ⟨goStr "GET", goStr "u", [], goStr "a"⟩ = [] ↔
      CompareHTTPRequests
        (HTTPReqToTestutilHTTPReq ⟨goStr "GET", goStr "u", [], goStr "a"⟩)
        ⟨goStr "GET", goStr "u", [], goStr "a"⟩ = []) :=
  checkVsCompareRequests_agree _ _ (by decide)

set_option maxRecDepth 4000 in
/-- Claim C7, counterexample.  The claim states, among other things,
that when exactly one of the three fields mismatches the result is the
summary line plus exactly one diff entry.  With equal status codes, no
expected headers, and bodies differing only in a UTF-8 continuation
byte, the body field mismatches yet `CheckHTTPResponse` returns the
empty string, because body comparison is delegated to the rune-skipping
`CompareStrings`. -/
theorem checkHTTPResponse_counterexample :
    CheckHTTPResponse ⟨200, [], [195, 168]⟩ ⟨200, [], [195, 169]⟩ = [] ∧
      ([195, 168] : GoString) ≠ [195, 169] := by decide

/-- Claim C7, amended, with body mismatch read as "`CompareStrings`
reports a non-empty diff" (the code's and the specification's notion of
string difference): when status code, every expected header first
value, and body all match, the result is empty; and when exactly one of
the three fields mismatches, the result is the summary line followed by
exactly the one corresponding entry (status, header, or body). -/
theorem checkHTTPResponse_single_diff (got : GoHTTPResponse) (want : HTTPResponse) :
    ((got.StatusCode = want.StatusCode ∧
      (∀ p ∈ want.Header, headerGet got.Header p.1 = headerGet want.Header p.1) ∧
      CompareStrings got.Body want.Body = []) →
        CheckHTTPResponse got want = [])
    ∧ ((got.StatusCode ≠ want.StatusCode ∧
      (∀ p ∈ want.Header, headerGet got.Header p.1 = headerGet want.Header p.1) ∧
      CompareStrings got.Body want.Body = []) →
        CheckHTTPResponse got want =
          goStr "response does not match what is expected:\n" ++
            statusLine got.StatusCode want.StatusCode)
    ∧ (∀ d, (got.StatusCode = want.StatusCode ∧
      headerDiffLines got.Header want.Header = [d] ∧
      CompareStrings got.Body want.Body = []) →
        CheckHTTPResponse got want =
          goStr "response does not match what is expected:\n" ++ d)
    ∧ ((got.StatusCode = want.StatusCode ∧
      (∀ p ∈ want.Header, headerGet got.Header p.1 = headerGet want.Header p.1) ∧
      CompareStrings got.Body want.Body ≠ []) →
        CheckHTTPResponse got want =
          goStr "response does not match what is expected:\n" ++
            (goStr "body is not expected, " ++ CompareStrings got.Body want.Body)) := by
  refine ⟨?_, ?_, ?_, ?_⟩
  · rintro ⟨hs, hh, hb⟩
    have hd : responseDiffs got want = [] := by
      unfold responseDiffs
      rw [(headerDiffLines_eq_nil_iff _ _).2 hh]
      simp [hs, hb]
    simp [CheckHTTPResponse, hd]
  · rintro ⟨hs, hh, hb⟩
    have hd : responseDiffs got want = [statusLine got.StatusCode want.StatusCode] := by
      unfold responseDiffs
      rw [(headerDiffLines_eq_nil_iff _ _).2 hh]
      simp [hs, hb]
    simp [CheckHTTPResponse, hd, goJoin]
  · rintro d ⟨hs, hh, hb⟩
    have hd : responseDiffs got want = [d] := by
      unfold responseDiffs
      rw [hh]
      simp [hs, hb]
    simp [CheckHTTPResponse, hd, goJoin]
  · rintro ⟨hs, hh, hb⟩
    have hd : responseDiffs got want =
        [goStr "body is not expected, " ++ CompareStrings got.Body want.Body] := by
      unfold responseDiffs
      rw [(headerDiffLines_eq_nil_iff _ _).2 hh]
      simp [hs, hb]
    simp [CheckHTTPResponse, hd, goJoin]

set_option maxRecDepth 10000 in
theorem checkHTTPResponse_single_diff_witness :
    CheckHTTPResponse ⟨200, [], goStr "b"⟩ ⟨200, [], goStr "b"⟩ = [] ∧
      CheckHTTPResponse ⟨101, [], goStr "b"⟩ ⟨200, [], goStr "b"⟩ =
        goStr "response does not match what is expected:\n" ++ statusLine 101 200 ∧
      CheckHTTPResponse ⟨200, [(goStr "A", [goStr "x"])], goStr "b"⟩
          ⟨200, [(goStr "A", [goStr "y"])], goStr "b"⟩ =
        goStr "response does not match what is expected:\n" ++
          headerLine (goStr "A") (goStr "x") (goStr "y") ∧
      CheckHTTPResponse ⟨200, [], goStr "x"⟩ ⟨200, [], goStr "y"⟩ =
        goStr "response does not match what is expected:\n" ++
          (goStr "body is not expected, " ++ CompareStrings (goStr "x") (goStr "y")) :=
  ⟨(checkHTTPResponse_single_diff ⟨200, [], goStr "b"⟩ ⟨200, [], goStr "b"⟩).1
      ⟨rfl, by simp, by decide⟩,
   (checkHTTPResponse_single_diff ⟨101, [], goStr "b"⟩ ⟨200, [], goStr "b"⟩).2.1
      ⟨by decide, by simp, by decide⟩,
   (checkHTTPResponse_single_diff ⟨200, [(goStr "A", [goStr "x"])], goStr "b"⟩
        ⟨200, [(goStr "A", [goStr "y"])], goStr "b"⟩).2.2.1
      (headerLine (goStr "A") (goStr "x") (goStr "y")) ⟨rfl, by decide, by decide⟩,
   (checkHTTPResponse_single_diff ⟨200, [], goStr "x"⟩ ⟨200, [], goStr "y"⟩).2.2.2
      ⟨rfl, by simp, by decide⟩⟩

/-- Claim C8: every comparator is a pure function of its declared
inputs — two calls with identical inputs yield identical output
strings.  The live request/response variants are modeled with the body
stream contents as an explicit input field (`MustReadAll` consumes the
stream; there is no other state), so the statement quantifies over the
observable fields: any two request or response objects agreeing on
every field the comparator reads produce identical results. -/
theorem comparators_deterministic :
    (∀ g1 g2 w1 w2 : GoString, g1 = g2 → w1 = w2 →
        CompareStrings g1 w1 = CompareStrings g2 w2) ∧
    (∀ e1 e2 : Option GoString, ∀ m1 m2 : GoString, e1 = e2 → m1 = m2 →
        CheckErrHasMsg e1 m1 = CheckErrHasMsg e2 m2) ∧
    (∀ r1 r2 : GoHTTPRequest, ∀ w : HTTPRequest,
        r1.Method = r2.Method → r1.URLStr = r2.URLStr → r1.Header = r2.Header →
        r1.Body = r2.Body → CheckHTTPRequest r1 w = CheckHTTPRequest r2 w) ∧
    (∀ p1 p2 : GoHTTPResponse, ∀ w : HTTPResponse,
        p1.StatusCode = p2.StatusCode → p1.Header = p2.Header → p1.Body = p2.Body →
        CheckHTTPResponse p1 w = CheckHTTPResponse p2 w) := by
  refine ⟨?_, ?_, ?_, ?_⟩
  · intro g1 g2 w1 w2 h1 h2; rw [h1, h2]
  · intro e1 e2 m1 m2 h1 h2; rw [h1, h2]
  · intro r1 r2 w h1 h2 h3 h4
    cases r1; cases r2
    simp only at h1 h2 h3 h4
    subst h1; subst h2; subst h3; subst h4
    rfl
  · intro p1 p2 w h1 h2 h3
    cases p1; cases p2
    simp only at h1 h2 h3
    subst h1; subst h2; subst h3
    rfl

theorem comparators_deterministic_witness :
    CompareStrings [97] [98] = CompareStrings [97] [98] ∧
      CheckErrHasMsg none [] = CheckErrHasMsg none [] ∧
      CheckHTTPRequest ⟨[], [], [], []⟩ ⟨[], [], [], []⟩ =
        CheckHTTPRequest ⟨[], [], [], []⟩ ⟨[], [], [], []⟩ ∧
      CheckHTTPResponse ⟨0, [], []⟩ ⟨0, [], []⟩ =
        CheckHTTPResponse ⟨0, [], []⟩ ⟨0, [], []⟩ :=
  ⟨comparators_deterministic.1 [97] [97] [98] [98] rfl rfl,
   comparators_deterministic.2.1 none none [] [] rfl rfl,
   comparators_deterministic.2.2.1 ⟨[], [], [], []⟩ ⟨[], [], [], []⟩
     ⟨[], [], [], []⟩ rfl rfl rfl rfl,
   comparators_deterministic.2.2.2 ⟨0, [], []⟩ ⟨0, [], []⟩ ⟨0, [], []⟩ rfl rfl rfl⟩

/-- Claim C10: an expected header entry whose value list is empty
asserts nothing.  For a (canonical) name `n` whose first-value lookup
is empty on both the actual and the expected side, adding the entry
`(n, [])` to the expected headers changes neither
`CheckHTTPRequest` nor `CheckHTTPResponse`: the lookup returns the
empty string on both sides, they compare equal, and no diff line is
produced. -/
theorem emptyHeaderEntry_assertsNothing (n : GoString)
    (gotR : GoHTTPRequest) (want : HTTPRequest)
    (gotP : GoHTTPResponse) (wantP : HTTPResponse)
    (hcanon : canonicalMIMEHeaderKey n = n)
    (h1 : headerGet gotR.Header n = []) (h2 : headerGet want.Header n = [])
    (h3 : headerGet gotP.Header n = []) (h4 : headerGet wantP.Header n = []) :
    CheckHTTPRequest gotR { want with Header := (n, []) :: want.Header } =
        CheckHTTPRequest gotR want ∧
      CheckHTTPResponse gotP { wantP with Header := (n, []) :: wantP.Header } =
        CheckHTTPResponse gotP wantP := by
  constructor
  · unfold CheckHTTPRequest requestDiffs
    dsimp only
    rw [headerDiffLines_cons_empty _ _ _ hcanon h1 h2]
  · unfold CheckHTTPResponse responseDiffs
    dsimp only
    rw [headerDiffLines_cons_empty _ _ _ hcanon h3 h4]

set_option maxRecDepth 4000 in
theorem emptyHeaderEntry_assertsNothing_witness :
    CheckHTTPRequest ⟨goStr "GET", goStr "u", [], []⟩
        { Method := goStr "GET", URL := goStr "u",
          Header := (goStr "A", []) :: ([] : Headers), Body := [] } =
      CheckHTTPRequest ⟨goStr "GET", goStr "u", [], []⟩
        { Method := goStr "GET", URL := goStr "u", Header := [], Body := [] } ∧
    CheckHTTPResponse ⟨200, [], []⟩
        { StatusCode := 200, Header := (goStr "A", []) :: ([] : Headers), Body := [] } =
      CheckHTTPResponse ⟨200, [], []⟩
        { StatusCode := 200, Header := [], Body := [] } :=
  emptyHeaderEntry_assertsNothing (goStr "A")
    ⟨goStr "GET", goStr "u", [], []⟩
    { Method := goStr "GET", URL := goStr "u", Header := [], Body := [] }
    ⟨200, [], []⟩
    { StatusCode := 200, Header := [], Body := [] }
    (by decide) rfl rfl rfl rfl
